import Mathlib

/-!
Shallow embedding of the request-lifecycle and notification core of the
cyverse-de/requests service.  The repository sources available here are the
swagger documentation (`src/api/main_docs.go`) and the service entry point
(`src/unnamed/part_000`, a `main.go` that wires the Echo routes); the bodies
of the API handlers, the database layer and the downstream clients are not
present, so the operations below are modelled from the specification
(`spec.md`, sections 3-7), which was written from that code.  Machine
integers are modelled as `Nat`; the opaque `details` payload and all user
names are `String`s; database commit order is modelled by an explicit
logical clock on the store.
-/

namespace Requests

/-- Modelled from the spec: a request type has a unique case-sensitive `name`
and a generated `id` (spec section 3, "RequestType"). -/
structure RequestType where
  id : Nat
  name : String
  deriving DecidableEq, Repr

/-- Modelled from the spec: a status code has a unique `name` and an `id`;
reference data populated out of band, read-only to the core (spec section 3,
"StatusCode"). -/
structure StatusCode where
  id : Nat
  name : String
  deriving DecidableEq, Repr

/-- Modelled from the spec: an immutable record that a request transitioned
to a given status code (spec section 3, "StatusUpdate").  The `createdAt`
field is the store's logical time; `id` is monotonically increasing. -/
structure StatusUpdate where
  id : Nat
  requestId : Nat
  statusCodeId : Nat
  updatingUser : String
  message : String
  createdAt : Nat
  deriving DecidableEq, Repr

/-- Modelled from the spec: a request with its ordered, append-only history
of status updates (spec section 3, "Request"). -/
structure Request where
  id : Nat
  requestingUser : String
  requestTypeId : Nat
  details : String
  createdAt : Nat
  history : List StatusUpdate
  deriving DecidableEq, Repr

/-- Modelled from the spec: the error taxonomy of section 7. -/
inductive ErrKind where
  | notFound
  | conflict
  | validationFailed
  | upstreamUnavailable
  deriving DecidableEq, Repr

/-- Modelled from the spec: the persistent state behind the registries and
the request store (spec sections 4.1-4.3, 9).  The counters generate ids and
the `clock` is the logical commit time that serializes appends. -/
structure Store where
  requestTypes : List RequestType
  statusCodes : List StatusCode
  requests : List Request
  nextTypeId : Nat
  nextRequestId : Nat
  nextUpdateId : Nat
  clock : Nat
  deriving DecidableEq, Repr

/-- Modelled from the spec: the initial state of the service: no request
types, no requests, and a status-code table populated out of band (spec
section 3, "StatusCode"). -/
def initStore (codes : List StatusCode) : Store :=
  ⟨[], codes, [], 0, 0, 0, 0⟩

/-- Modelled from the spec: RequestTypeRegistry.Register (spec section 4.1):
if a RequestType with the name exists it is returned unchanged with no error
and no new row; otherwise a new one is created and returned. -/
def registerRequestType (name : String) (st : Store) : RequestType × Store :=
  match st.requestTypes.find? (fun t => t.name == name) with
  | some rt => (rt, st)
  | none =>
    let rt : RequestType := ⟨st.nextTypeId, name⟩
    (rt, { st with
            requestTypes := st.requestTypes ++ [rt],
            nextTypeId := st.nextTypeId + 1 })

/-- Modelled from the spec: RequestTypeRegistry.Get (spec section 4.1):
fails with NotFound if absent. -/
def getRequestType (name : String) (st : Store) : Except ErrKind RequestType :=
  match st.requestTypes.find? (fun t => t.name == name) with
  | some rt => Except.ok rt
  | none => Except.error ErrKind.notFound

/-- Modelled from the spec: RequestTypeRegistry.Update (spec section 4.1):
fails with NotFound if the name is unregistered.  The spec's data model
gives a RequestType only its immutable key `name` and its `id`, so there are
no updatable fields beyond the key and a successful update returns the
record unchanged. -/
def updateRequestType (name : String) (st : Store) :
    Except ErrKind RequestType × Store :=
  match st.requestTypes.find? (fun t => t.name == name) with
  | some rt => (Except.ok rt, st)
  | none => (Except.error ErrKind.notFound, st)

/-- Modelled from the spec: RequestTypeRegistry.List (spec section 4.1):
a finite, fully materialized sequence sorted by name. -/
def listRequestTypes (st : Store) : List RequestType :=
  st.requestTypes.mergeSort (fun a b => a.name ≤ b.name)

/-- Modelled from the spec: StatusCodeRegistry.Get (spec section 4.2):
fails with NotFound if absent; used to validate transitions before they
reach the store. -/
def getStatusCode (name : String) (st : Store) : Except ErrKind StatusCode :=
  match st.statusCodes.find? (fun c => c.name == name) with
  | some sc => Except.ok sc
  | none => Except.error ErrKind.notFound

/-- Modelled from the spec: the request a store lookup by id resolves to. -/
def findRequest (requestId : Nat) (st : Store) : Option Request :=
  st.requests.find? (fun r => r.id == requestId)

/-- Modelled from the spec: the initial StatusUpdate created atomically with
a new Request (spec sections 3 and 4.3). -/
def initialUpdate (user : String) (sc : StatusCode) (st : Store) : StatusUpdate :=
  ⟨st.nextUpdateId, st.nextRequestId, sc.id, user, "", st.clock⟩

/-- Modelled from the spec: RequestStore.CreateRequest (spec section 4.3):
atomically persists the Request and its first StatusUpdate as a single
unit. -/
def createRequest (user : String) (rty : RequestType) (details : String)
    (sc : StatusCode) (st : Store) : Request × Store :=
  let u := initialUpdate user sc st
  let r : Request := ⟨st.nextRequestId, user, rty.id, details, st.clock, [u]⟩
  (r, { st with
          requests := st.requests ++ [r],
          nextRequestId := st.nextRequestId + 1,
          nextUpdateId := st.nextUpdateId + 1,
          clock := st.clock + 1 })

/-- Modelled from the spec: the serialized commit of one status append
(spec sections 4.3 and 5): the new entry takes the current logical time and
the next monotonically increasing id, and the clock advances. -/
def commitStatus (requestId : Nat) (sc : StatusCode)
    (updatingUser message : String) (st : Store) : StatusUpdate × Store :=
  let u : StatusUpdate :=
    ⟨st.nextUpdateId, requestId, sc.id, updatingUser, message, st.clock⟩
  (u, { st with
          requests := st.requests.map (fun r =>
            if r.id == requestId then { r with history := r.history ++ [u] } else r),
          nextUpdateId := st.nextUpdateId + 1,
          clock := st.clock + 1 })

/-- Modelled from the spec: RequestStore.AppendStatus (spec section 4.3):
fails with NotFound if the request id is unknown, otherwise appends under
the total order guarantee. -/
def appendStatus (requestId : Nat) (sc : StatusCode)
    (updatingUser message : String) (st : Store) :
    Except ErrKind StatusUpdate × Store :=
  match findRequest requestId st with
  | none => (Except.error ErrKind.notFound, st)
  | some _ =>
    let p := commitStatus requestId sc updatingUser message st
    (Except.ok p.1, p.2)

/-- Modelled from the spec: the three notification channels of section 4.6:
direct email to the requester, notification-agent message to the requester,
and notices to each resolved admin. -/
inductive Channel where
  | email
  | agent
  | adminNotices
  deriving DecidableEq, Repr

/-- Modelled from the spec: one attempted send on one channel to one
recipient. -/
structure Attempt where
  channel : Channel
  recipient : String
  deriving DecidableEq, Repr

/-- Modelled from the spec: NotificationDispatcher.Dispatch result with
per-channel success/failure flags (spec section 4.6). -/
structure DispatchResult where
  emailOK : Bool
  agentOK : Bool
  adminResolutionOK : Bool
  deriving DecidableEq, Repr

/-- Modelled from the spec: the external collaborators of section 6: the
email sender, the notification-agent sender, and the group-membership
resolver (`none` models UpstreamUnavailable), plus the configured address
computation for a username. -/
structure Env where
  addressOf : String → String
  sendEmail : String → Bool
  sendAgent : String → Bool
  adminGroup : Option (List String)

/-- Modelled from the spec: NotificationDispatcher.Dispatch (spec section
4.6): computes the requester's address and the admin set, then attempts the
email channel, the agent channel, and the admin notices independently,
returning the per-channel flags together with the list of attempted sends. -/
def dispatch (env : Env) (requestingUser : String) (_u : StatusUpdate) :
    DispatchResult × List Attempt :=
  let addr := env.addressOf requestingUser
  let emailRes := env.sendEmail addr
  let agentRes := env.sendAgent requestingUser
  match env.adminGroup with
  | none =>
    (⟨emailRes, agentRes, false⟩,
     [⟨Channel.email, addr⟩, ⟨Channel.agent, requestingUser⟩])
  | some admins =>
    (⟨emailRes, agentRes, true⟩,
     ⟨Channel.email, addr⟩ :: ⟨Channel.agent, requestingUser⟩ ::
       admins.map (fun a => ⟨Channel.adminNotices, a⟩))

/-- Modelled from the spec: the observable events of one lifecycle
operation, in order: the durable commit of a StatusUpdate, then its
dispatch (spec sections 4.5 and 5). -/
inductive Event where
  | committed (u : StatusUpdate)
  | dispatched (u : StatusUpdate) (res : DispatchResult)
  deriving DecidableEq, Repr

/-- Modelled from the spec: the outcome of a lifecycle operation: the
caller-visible result, the store after the operation, and the ordered event
trace. -/
structure SubmitOutcome where
  result : Except ErrKind Request
  store : Store
  events : List Event
  deriving Repr

/-- Modelled from the spec: the outcome of a status update. -/
structure UpdateOutcome where
  result : Except ErrKind (StatusUpdate × DispatchResult)
  store : Store
  events : List Event
  deriving Repr

/-- Modelled from the spec: RequestLifecycleManager.SubmitRequest (spec
section 4.5): resolves the type name (NotFound if unregistered), resolves
the configured default status code, creates the Request with its initial
status atomically, then triggers the dispatcher for that initial
transition. -/
def submitRequest (env : Env) (defaultStatusName user typeName details : String)
    (st : Store) : SubmitOutcome :=
  match getRequestType typeName st with
  | Except.error e => ⟨Except.error e, st, []⟩
  | Except.ok rty =>
    match getStatusCode defaultStatusName st with
    | Except.error e => ⟨Except.error e, st, []⟩
    | Except.ok sc =>
      let u := initialUpdate user sc st
      let p := createRequest user rty details sc st
      let d := dispatch env user u
      ⟨Except.ok p.1, p.2, [Event.committed u, Event.dispatched u d.1]⟩

/-- Modelled from the spec: RequestLifecycleManager.UpdateStatus (spec
section 4.5): resolves the status name via the StatusCodeRegistry (NotFound
if invalid), appends via the store (NotFound if the request id is invalid),
then triggers the dispatcher; append and dispatch are sequential, not
transactional. -/
def updateStatus (env : Env) (requestId : Nat)
    (statusName updatingUser message : String) (st : Store) : UpdateOutcome :=
  match getStatusCode statusName st with
  | Except.error e => ⟨Except.error e, st, []⟩
  | Except.ok sc =>
    match findRequest requestId st with
    | none => ⟨Except.error ErrKind.notFound, st, []⟩
    | some r =>
      let p := commitStatus requestId sc updatingUser message st
      let d := dispatch env r.requestingUser p.1
      ⟨Except.ok (p.1, d.1), p.2, [Event.committed p.1, Event.dispatched p.1 d.1]⟩

/-- Modelled from the spec: the body of a POST /requests submission
(`model.RequestSubmission` in src/api/main_docs.go; the model package is
not under src). -/
structure RequestSubmission where
  requestType : String
  details : String
  deriving DecidableEq, Repr

/-- Modelled from the spec: AddRequestHandler for POST /requests (the
handler body is not under src; the swagger declaration in
src/api/main_docs.go lines 129-142 marks the `user` query parameter
required).  A submission without the parameter fails validation and no
Request is created; otherwise the submission is forwarded to
SubmitRequest. -/
def addRequestHandler (env : Env) (defaultStatusName : String)
    (userParam : Option String) (body : RequestSubmission) (st : Store) :
    Except ErrKind Request × Store :=
  match userParam with
  | none => (Except.error ErrKind.validationFailed, st)
  | some user =>
    let o := submitRequest env defaultStatusName user body.requestType body.details st
    (o.result, o.store)

/-- Modelled from the spec: the states of the service reachable through its
boundary surface (spec section 6) from an initial state whose status-code
table was populated out of band. -/
inductive Reachable : Store → Prop where
  | init (codes : List StatusCode) : Reachable (initStore codes)
  | register (name : String) (st : Store) :
      Reachable st → Reachable (registerRequestType name st).2
  | updateType (name : String) (st : Store) :
      Reachable st → Reachable (updateRequestType name st).2
  | append (requestId : Nat) (sc : StatusCode) (uu msg : String) (st : Store) :
      Reachable st → Reachable (appendStatus requestId sc uu msg st).2
  | submit (env : Env) (d user ty det : String) (st : Store) :
      Reachable st → Reachable (submitRequest env d user ty det st).store
  | update (env : Env) (requestId : Nat) (sn uu msg : String) (st : Store) :
      Reachable st → Reachable (updateStatus env requestId sn uu msg st).store

/-- Strict ordering between status updates: later logical time and later
insertion id (spec section 3: the store guarantees a total, monotonic
order per request). -/
def updateLt (a b : StatusUpdate) : Prop :=
  a.createdAt < b.createdAt ∧ a.id < b.id

instance (a b : StatusUpdate) : Decidable (updateLt a b) := by
  unfold updateLt; infer_instance

/-- Well-formedness of one request's history relative to the store's clock
and id counter: nonempty, strictly ordered, and bounded by the counters. -/
def HistoryOK (clock nextId : Nat) (l : List StatusUpdate) : Prop :=
  l ≠ [] ∧ List.Chain' updateLt l ∧ ∀ u ∈ l, u.createdAt < clock ∧ u.id < nextId

/-- The store invariant: every persisted request has a well-formed
history. -/
def StoreInv (st : Store) : Prop :=
  ∀ r ∈ st.requests, HistoryOK st.clock st.nextUpdateId r.history

/-- Whether `b` is later than `a` in the spec's "current status" order:
latest `created_at`, ties broken by monotonically increasing id (spec
section 3, "StatusUpdate"). -/
def laterThan (a b : StatusUpdate) : Bool :=
  a.createdAt < b.createdAt || (a.createdAt == b.createdAt && a.id < b.id)

/-- One step of selecting the latest status update. -/
def pickLatest (acc : Option StatusUpdate) (u : StatusUpdate) : Option StatusUpdate :=
  match acc with
  | none => some u
  | some a => if laterThan a u then some u else some a

/-- Modelled from the spec: the current status of a Request is the
StatusUpdate with the latest `created_at`, ties broken by insertion order
(spec section 3, "StatusUpdate"). -/
def currentStatus (r : Request) : Option StatusUpdate :=
  r.history.foldl pickLatest none

/-- Whether an event is a dispatcher invocation for the given update. -/
def isDispatchFor (u : StatusUpdate) : Event → Bool
  | Event.dispatched v _ => v == u
  | _ => false

/-- Status-code table used by the concrete scenario of spec section 8. -/
def demoCodes : List StatusCode := [⟨1, "submitted"⟩, ⟨2, "approved"⟩]

/-- Collaborator environment in which every downstream service is up. -/
def demoEnv : Env :=
  ⟨fun u => u ++ "@example.org", fun _ => true, fun _ => true,
   some ["admin1", "admin2"]⟩

/-- Collaborator environment in which the email channel fails. -/
def demoEnvEmailDown : Env :=
  ⟨fun u => u ++ "@example.org", fun _ => false, fun _ => true, some ["admin1"]⟩

/-- Initial demo state. -/
def demoStore0 : Store := initStore demoCodes

/-- Demo state after registering the request type of spec section 8. -/
def demoStore1 : Store := (registerRequestType "account-removal" demoStore0).2

/-- Demo state after the submission of spec section 8. -/
def demoStore2 : Store :=
  (submitRequest demoEnv "submitted" "alice" "account-removal" "please remove" demoStore1).store

/-- Demo state after the approval transition of spec section 8. -/
def demoStore3 : Store :=
  (updateStatus demoEnv 0 "approved" "admin1" "looks good" demoStore2).store

/-- The request persisted by the demo submission. -/
def demoRequest1 : Request :=
  ⟨0, "alice", 0, "please remove", 0, [⟨0, 0, 1, "alice", "", 0⟩]⟩

/-- The demo request after the approval transition. -/
def demoRequest2 : Request :=
  ⟨0, "alice", 0, "please remove", 0,
   [⟨0, 0, 1, "alice", "", 0⟩, ⟨1, 0, 2, "admin1", "looks good", 1⟩]⟩

/-- A demo status update used to exercise the dispatcher. -/
def demoUpdate1 : StatusUpdate := ⟨1, 0, 2, "admin1", "looks good", 1⟩

theorem historyOK_mono {c c' n n' : Nat} {l : List StatusUpdate}
    (h : HistoryOK c n l) (hc : c ≤ c') (hn : n ≤ n') : HistoryOK c' n' l := by
  refine ⟨h.1, h.2.1, fun u hu => ?_⟩
  have := h.2.2 u hu
  exact ⟨lt_of_lt_of_le this.1 hc, lt_of_lt_of_le this.2 hn⟩

theorem historyOK_append {c n : Nat} {l : List StatusUpdate} {u : StatusUpdate}
    (h : HistoryOK c n l) (hc : u.createdAt = c) (hn : u.id = n) :
    HistoryOK (c + 1) (n + 1) (l ++ [u]) := by
  refine ⟨by simp, ?_, ?_⟩
  · rw [List.chain'_append]
    refine ⟨h.2.1, List.chain'_singleton u, fun x hx y hy => ?_⟩
    simp only [List.head?_cons, Option.mem_def, Option.some.injEq] at hy
    subst hy
    have hxl : x ∈ l := List.mem_of_getLast?_eq_some hx
    have := h.2.2 x hxl
    exact ⟨by omega, by omega⟩
  · intro v hv
    rcases List.mem_append.mp hv with hv | hv
    · have := h.2.2 v hv
      exact ⟨by omega, by omega⟩
    · simp only [List.mem_singleton] at hv
      subst hv
      exact ⟨by omega, by omega⟩

theorem historyOK_single {c n : Nat} {u : StatusUpdate}
    (hc : u.createdAt = c) (hn : u.id = n) : HistoryOK (c + 1) (n + 1) [u] := by
  refine ⟨by simp, List.chain'_singleton u, ?_⟩
  intro v hv
  simp only [List.mem_singleton] at hv
  subst hv
  exact ⟨by omega, by omega⟩

theorem registerRequestType_store (name : String) (st : Store) :
    (registerRequestType name st).2.requests = st.requests ∧
    (registerRequestType name st).2.clock = st.clock ∧
    (registerRequestType name st).2.nextUpdateId = st.nextUpdateId := by
  unfold registerRequestType
  cases st.requestTypes.find? (fun t => t.name == name) <;> simp

theorem updateRequestType_store (name : String) (st : Store) :
    (updateRequestType name st).2 = st := by
  unfold updateRequestType
  cases st.requestTypes.find? (fun t => t.name == name) <;> rfl

theorem storeInv_register (name : String) (st : Store) (h : StoreInv st) :
    StoreInv (registerRequestType name st).2 := by
  intro r hr
  obtain ⟨hreq, hclk, hnid⟩ := registerRequestType_store name st
  rw [hreq] at hr
  rw [hclk, hnid]
  exact h r hr

theorem storeInv_commit (requestId : Nat) (sc : StatusCode) (uu msg : String)
    (st : Store) (h : StoreInv st) :
    StoreInv (commitStatus requestId sc uu msg st).2 := by
  intro r hr
  simp only [commitStatus, List.mem_map] at hr
  obtain ⟨r0, hr0, hmap⟩ := hr
  have h0 := h r0 hr0
  by_cases hid : r0.id == requestId
  · simp only [hid, if_pos] at hmap
    subst hmap
    exact historyOK_append h0 rfl rfl
  · simp only [hid] at hmap
    simp only [Bool.false_eq_true, if_false] at hmap
    subst hmap
    exact historyOK_mono h0 (Nat.le_succ _) (Nat.le_succ _)

theorem storeInv_append (requestId : Nat) (sc : StatusCode) (uu msg : String)
    (st : Store) (h : StoreInv st) :
    StoreInv (appendStatus requestId sc uu msg st).2 := by
  unfold appendStatus
  cases findRequest requestId st
  · exact h
  · exact storeInv_commit requestId sc uu msg st h

theorem storeInv_create (user : String) (rty : RequestType) (details : String)
    (sc : StatusCode) (st : Store) (h : StoreInv st) :
    StoreInv (createRequest user rty details sc st).2 := by
  intro r hr
  simp only [createRequest, List.mem_append, List.mem_singleton] at hr
  rcases hr with hr | hr
  · exact historyOK_mono (h r hr) (Nat.le_succ _) (Nat.le_succ _)
  · subst hr
    exact historyOK_single rfl rfl

theorem storeInv_submit (env : Env) (d user ty det : String) (st : Store)
    (h : StoreInv st) : StoreInv (submitRequest env d user ty det st).store := by
  unfold submitRequest
  cases getRequestType ty st
  · exact h
  · cases getStatusCode d st
    · exact h
    · exact storeInv_create user _ det _ st h

theorem storeInv_update (env : Env) (requestId : Nat) (sn uu msg : String)
    (st : Store) (h : StoreInv st) :
    StoreInv (updateStatus env requestId sn uu msg st).store := by
  unfold updateStatus
  cases getStatusCode sn st
  · exact h
  · cases findRequest requestId st
    · exact h
    · exact storeInv_commit requestId _ uu msg st h

theorem reachable_storeInv {st : Store} (h : Reachable st) : StoreInv st := by
  induction h with
  | init codes => intro r hr; simp [initStore] at hr
  | register name st _ ih => exact storeInv_register name st ih
  | updateType name st _ ih => rw [updateRequestType_store]; exact ih
  | append requestId sc uu msg st _ ih => exact storeInv_append requestId sc uu msg st ih
  | submit env d user ty det st _ ih => exact storeInv_submit env d user ty det st ih
  | update env requestId sn uu msg st _ ih => exact storeInv_update env requestId sn uu msg st ih

theorem foldl_pickLatest_cons (a : StatusUpdate) (l : List StatusUpdate)
    (h : List.Chain' updateLt (a :: l)) :
    l.foldl pickLatest (some a) = (a :: l).getLast? := by
  induction l generalizing a with
  | nil => simp
  | cons b t ih =>
    have hab : updateLt a b := (List.chain'_cons.mp h).1
    have ht : List.Chain' updateLt (b :: t) := (List.chain'_cons.mp h).2
    have hpick : pickLatest (some a) b = some b := by
      simp [pickLatest, laterThan, hab.1]
    rw [List.foldl_cons, hpick, ih b ht, List.getLast?_cons_cons]

theorem currentStatus_eq_getLast (r : Request)
    (h : List.Chain' updateLt r.history) :
    currentStatus r = r.history.getLast? := by
  unfold currentStatus
  cases hl : r.history with
  | nil => rfl
  | cons a t =>
    rw [hl] at h
    rw [List.foldl_cons]
    exact foldl_pickLatest_cons a t h

theorem commitStatus_mem (requestId : Nat) (sc : StatusCode) (uu msg : String)
    (st : Store) (r : Request) (hr : findRequest requestId st = some r) :
    ∃ r', r' ∈ (commitStatus requestId sc uu msg st).2.requests ∧
      (commitStatus requestId sc uu msg st).1 ∈ r'.history := by
  unfold findRequest at hr
  have hrmem : r ∈ st.requests := List.mem_of_find?_eq_some hr
  have hrid := List.find?_some hr
  refine ⟨{ r with history :=
      r.history ++ [(commitStatus requestId sc uu msg st).1] }, ?_, ?_⟩
  · simp only [commitStatus, List.mem_map]
    exact ⟨r, hrmem, by rw [hrid]; simp⟩
  · simp

theorem demoStore1_reachable : Reachable demoStore1 :=
  Reachable.register "account-removal" demoStore0 (Reachable.init demoCodes)

theorem demoStore2_reachable : Reachable demoStore2 :=
  Reachable.submit demoEnv "submitted" "alice" "account-removal" "please remove"
    demoStore1 demoStore1_reachable

theorem demoStore3_reachable : Reachable demoStore3 :=
  Reachable.update demoEnv 0 "approved" "admin1" "looks good"
    demoStore2 demoStore2_reachable

/-- C1: registering a request type is idempotent: if a RequestType with the
name already exists, Register returns the existing record unchanged with no
error and creates no duplicate row, and registering the same name twice
yields the same record (hence the same id) both times with an unchanged
store after the second call. -/
theorem registerRequestType_idempotent (name : String) (st : Store) :
    (∀ rt, st.requestTypes.find? (fun t => t.name == name) = some rt →
        registerRequestType name st = (rt, st)) ∧
    registerRequestType name (registerRequestType name st).2
      = registerRequestType name st := by
  constructor
  · intro rt hrt
    unfold registerRequestType
    rw [hrt]
  · cases hfind : st.requestTypes.find? (fun t => t.name == name) with
    | some rt =>
      have h1 : registerRequestType name st = (rt, st) := by
        unfold registerRequestType; rw [hfind]
      rw [h1, h1]
    | none =>
      have h1 : registerRequestType name st
          = (⟨st.nextTypeId, name⟩,
             { st with
                requestTypes := st.requestTypes ++ [⟨st.nextTypeId, name⟩],
                nextTypeId := st.nextTypeId + 1 }) := by
        unfold registerRequestType; rw [hfind]
      rw [h1]
      dsimp only
      unfold registerRequestType
      dsimp only
      rw [List.find?_append, hfind]
      simp

/-- Witness for C1 at the demo store: registering the already-registered
name returns the existing record and leaves the store unchanged. -/
theorem registerRequestType_idempotent_witness :
    registerRequestType "account-removal" demoStore1
      = (⟨0, "account-removal"⟩, demoStore1) :=
  (registerRequestType_idempotent "account-removal" demoStore1).1
    ⟨0, "account-removal"⟩ (by decide)

/-- C2: every request reachable through the service's operations has at
least one StatusUpdate, and CreateRequest persists the Request and its
first StatusUpdate as a single unit: the new store's request list is the
old one plus the one new request, whose history is exactly the one initial
update. -/
theorem request_always_has_statusUpdate :
    (∀ st : Store, Reachable st → ∀ r ∈ st.requests, r.history ≠ []) ∧
    (∀ (user : String) (rty : RequestType) (details : String)
        (sc : StatusCode) (st : Store),
      (createRequest user rty details sc st).2.requests
        = st.requests ++ [(createRequest user rty details sc st).1] ∧
      (createRequest user rty details sc st).1.history
        = [initialUpdate user sc st]) := by
  constructor
  · intro st h r hr
    exact (reachable_storeInv h r hr).1
  · intro user rty details sc st
    exact ⟨rfl, rfl⟩

/-- Witness for C2 at the demo store reached by register, submit and
update. -/
theorem request_always_has_statusUpdate_witness :
    demoRequest2.history ≠ [] :=
  request_always_has_statusUpdate.1 demoStore3 demoStore3_reachable
    demoRequest2 (by decide)

/-- C3: UpdateStatus with a status name that no registered StatusCode
carries fails with NotFound and leaves the store (hence every request's
history) unchanged, with no dispatch event. -/
theorem updateStatus_unregisteredStatus_notFound (env : Env) (requestId : Nat)
    (name uu msg : String) (st : Store)
    (h : ∀ sc ∈ st.statusCodes, sc.name ≠ name) :
    updateStatus env requestId name uu msg st
      = ⟨Except.error ErrKind.notFound, st, []⟩ := by
  have hfind : st.statusCodes.find? (fun c => c.name == name) = none := by
    rw [List.find?_eq_none]
    intro c hc
    simpa using h c hc
  unfold updateStatus getStatusCode
  rw [hfind]

/-- Witness for C3: updating the demo request with the unregistered status
name leaves the demo store unchanged and reports NotFound. -/
theorem updateStatus_unregisteredStatus_notFound_witness :
    updateStatus demoEnv 0 "bogus" "admin1" "" demoStore2
      = ⟨Except.error ErrKind.notFound, demoStore2, []⟩ :=
  updateStatus_unregisteredStatus_notFound demoEnv 0 "bogus" "admin1" ""
    demoStore2 (by decide)

/-- C4: a failure of the email channel during dispatch is not fatal to the
status update: UpdateStatus still returns success, the new StatusUpdate is
durably present in the request's history in the resulting store, and the
dispatch result reports emailOK = false. -/
theorem emailFailure_nonfatal (env : Env) (requestId : Nat)
    (name uu msg : String) (st : Store) (sc : StatusCode) (r : Request)
    (hsc : getStatusCode name st = Except.ok sc)
    (hr : findRequest requestId st = some r)
    (hmail : env.sendEmail (env.addressOf r.requestingUser) = false) :
    ∃ u res,
      (updateStatus env requestId name uu msg st).result
        = Except.ok (u, res) ∧
      res.emailOK = false ∧
      ∃ r', r' ∈ (updateStatus env requestId name uu msg st).store.requests ∧
        u ∈ r'.history := by
  have hstore : (updateStatus env requestId name uu msg st).store
      = (commitStatus requestId sc uu msg st).2 := by
    unfold updateStatus
    rw [hsc, hr]
  have hres : (updateStatus env requestId name uu msg st).result
      = Except.ok ((commitStatus requestId sc uu msg st).1,
          (dispatch env r.requestingUser
            (commitStatus requestId sc uu msg st).1).1) := by
    unfold updateStatus
    rw [hsc, hr]
  refine ⟨(commitStatus requestId sc uu msg st).1,
    (dispatch env r.requestingUser (commitStatus requestId sc uu msg st).1).1,
    hres, ?_, ?_⟩
  · unfold dispatch
    cases env.adminGroup <;> simp [hmail]
  · rw [hstore]
    exact commitStatus_mem requestId sc uu msg st r hr

/-- Witness for C4: with the email service down, approving the demo request
still succeeds and the approval is present in the stored history, with
emailOK = false in the dispatch result. -/
theorem emailFailure_nonfatal_witness :
    ∃ u res,
      (updateStatus demoEnvEmailDown 0 "approved" "admin1" "looks good"
        demoStore2).result = Except.ok (u, res) ∧
      res.emailOK = false ∧
      ∃ r', r' ∈ (updateStatus demoEnvEmailDown 0 "approved" "admin1"
          "looks good" demoStore2).store.requests ∧
        u ∈ r'.history :=
  emailFailure_nonfatal demoEnvEmailDown 0 "approved" "admin1" "looks good"
    demoStore2 ⟨2, "approved"⟩ demoRequest1 rfl rfl rfl

/-- C5: for every reachable state and every persisted request, the history
is totally ordered and monotonic (each later entry has strictly later
logical time and strictly larger id, so no update is ever inserted with an
earlier logical time than the current latest), and the current status —
the entry with the latest created_at, ties broken by increasing id — is
exactly the last appended entry. -/
theorem statusHistory_totally_ordered (st : Store) (h : Reachable st) :
    ∀ r ∈ st.requests,
      List.Chain' updateLt r.history ∧
      currentStatus r = r.history.getLast? := by
  intro r hr
  have hinv := reachable_storeInv h r hr
  exact ⟨hinv.2.1, currentStatus_eq_getLast r hinv.2.1⟩

/-- Witness for C5 at the demo request with two history entries. -/
theorem statusHistory_totally_ordered_witness :
    List.Chain' updateLt demoRequest2.history ∧
    currentStatus demoRequest2 = demoRequest2.history.getLast? :=
  statusHistory_totally_ordered demoStore3 demoStore3_reachable
    demoRequest2 (by decide)

/-- C6: in every UpdateStatus and every SubmitRequest, either nothing is
committed and nothing is dispatched, or exactly one dispatcher invocation
occurs for the one committed StatusUpdate, it comes after the commit event
in the operation's trace, and the committed update is durably present in
the resulting store — so the dispatcher runs at most once per committed
update, never before the append commits, and its outcome never undoes the
append. -/
theorem dispatch_once_after_commit (env : Env) (requestId : Nat)
    (sn uu msg d user ty det : String) (st : Store) :
    ((updateStatus env requestId sn uu msg st).events = [] ∨
      ∃ u res,
        (updateStatus env requestId sn uu msg st).events
          = [Event.committed u, Event.dispatched u res] ∧
        (updateStatus env requestId sn uu msg st).events.countP
          (isDispatchFor u) = 1 ∧
        ∃ r, r ∈ (updateStatus env requestId sn uu msg st).store.requests ∧
          u ∈ r.history) ∧
    ((submitRequest env d user ty det st).events = [] ∨
      ∃ u res,
        (submitRequest env d user ty det st).events
          = [Event.committed u, Event.dispatched u res] ∧
        (submitRequest env d user ty det st).events.countP
          (isDispatchFor u) = 1 ∧
        ∃ r, r ∈ (submitRequest env d user ty det st).store.requests ∧
          u ∈ r.history) := by
  constructor
  · unfold updateStatus
    cases hsc : getStatusCode sn st with
    | error e => left; rfl
    | ok sc =>
      cases hr : findRequest requestId st with
      | none => left; rfl
      | some r =>
        right
        refine ⟨(commitStatus requestId sc uu msg st).1,
          (dispatch env r.requestingUser (commitStatus requestId sc uu msg st).1).1,
          rfl, ?_, ?_⟩
        · simp [List.countP_cons, isDispatchFor]
        · exact commitStatus_mem requestId sc uu msg st r hr
  · unfold submitRequest
    cases hty : getRequestType ty st with
    | error e => left; rfl
    | ok rty =>
      cases hsc : getStatusCode d st with
      | error e => left; rfl
      | ok sc =>
        right
        refine ⟨initialUpdate user sc st,
          (dispatch env user (initialUpdate user sc st)).1, rfl, ?_, ?_⟩
        · simp [List.countP_cons, isDispatchFor]
        · refine ⟨(createRequest user rty det sc st).1, ?_, ?_⟩
          · simp [createRequest]
          · simp [createRequest]

/-- C7: Dispatch attempts all three channels independently: the email to
the requester and the agent message to the requester are always attempted,
every resolved admin receives an attempted notice whenever admin
resolution succeeds, and the returned DispatchResult carries the
per-channel success flag of each channel regardless of how the other
channels fared. -/
theorem dispatch_attempts_all_channels (env : Env) (user : String)
    (u : StatusUpdate) :
    ((dispatch env user u).1.emailOK = env.sendEmail (env.addressOf user) ∧
     (dispatch env user u).1.agentOK = env.sendAgent user ∧
     (dispatch env user u).1.adminResolutionOK = env.adminGroup.isSome) ∧
    (⟨Channel.email, env.addressOf user⟩ : Attempt) ∈ (dispatch env user u).2 ∧
    (⟨Channel.agent, user⟩ : Attempt) ∈ (dispatch env user u).2 ∧
    ∀ admins, env.adminGroup = some admins →
      ∀ a ∈ admins,
        (⟨Channel.adminNotices, a⟩ : Attempt) ∈ (dispatch env user u).2 := by
  unfold dispatch
  cases hag : env.adminGroup with
  | none => simp
  | some admins =>
    refine ⟨⟨rfl, rfl, rfl⟩, by simp, by simp, ?_⟩
    intro admins' hadmins' a ha
    cases hadmins'
    simp only [List.mem_cons, List.mem_map]
    right; right
    exact ⟨a, ha, rfl⟩

/-- Witness for C7: in the demo environment the second resolved admin gets
an attempted notice. -/
theorem dispatch_attempts_all_channels_witness :
    (⟨Channel.adminNotices, "admin2"⟩ : Attempt)
      ∈ (dispatch demoEnv "alice" demoUpdate1).2 :=
  (dispatch_attempts_all_channels demoEnv "alice" demoUpdate1).2.2.2
    ["admin1", "admin2"] rfl "admin2" (by decide)

/-- C8: listing request types returns a finite, fully materialized list
that is a permutation of all registered RequestTypes and is sorted by
name. -/
theorem listRequestTypes_sorted_complete (st : Store) :
    (listRequestTypes st).Perm st.requestTypes ∧
    (listRequestTypes st).Pairwise (fun a b => a.name ≤ b.name) := by
  refine ⟨List.mergeSort_perm st.requestTypes _, ?_⟩
  have h := @List.sorted_mergeSort RequestType (fun a b => a.name ≤ b.name)
    (by intro a b c hab hbc
        simp only [decide_eq_true_eq] at *
        exact le_trans hab hbc)
    (by intro a b
        simp only [Bool.or_eq_true, decide_eq_true_eq]
        exact le_total _ _)
    st.requestTypes
  unfold listRequestTypes
  exact List.Pairwise.imp (fun hab => by simpa using hab) h

/-- C9: for a name with no registered RequestType, Get fails with NotFound
and Update fails with NotFound while leaving the store unchanged. -/
theorem getUpdateRequestType_absent_notFound (name : String) (st : Store)
    (h : ∀ rt ∈ st.requestTypes, rt.name ≠ name) :
    getRequestType name st = Except.error ErrKind.notFound ∧
    updateRequestType name st = (Except.error ErrKind.notFound, st) := by
  have hfind : st.requestTypes.find? (fun t => t.name == name) = none := by
    rw [List.find?_eq_none]
    intro t ht
    simpa using h t ht
  constructor
  · unfold getRequestType; rw [hfind]
  · unfold updateRequestType; rw [hfind]

/-- Witness for C9 at the demo store with an unregistered name. -/
theorem getUpdateRequestType_absent_notFound_witness :
    getRequestType "unknown-type" demoStore1 = Except.error ErrKind.notFound ∧
    updateRequestType "unknown-type" demoStore1
      = (Except.error ErrKind.notFound, demoStore1) :=
  getUpdateRequestType_absent_notFound "unknown-type" demoStore1 (by decide)

/-- C10: a POST /requests submission without the required user query
parameter is rejected with a validation failure and the store is unchanged,
so no Request is created from it. -/
theorem addRequestHandler_requires_user (env : Env) (d : String)
    (body : RequestSubmission) (st : Store) :
    addRequestHandler env d none body st
      = (Except.error ErrKind.validationFailed, st) := rfl

end Requests
